import Mathlib

/-!
Verification development for the SignalStrength journey recorder.

The JavaScript sources are shallowly embedded:
JS numbers are modelled as rationals (`ℚ`), `null`-able numbers as
`Option ℚ`, throwing constructors as `Except String`-valued functions,
and the IndexedDB journeys store as a keyed association list.
-/

deriving instance DecidableEq for Except

namespace SignalStrength

/-! ## src/js/models/DataPoint.js -/

/-- Plain keyed record produced by `DataPoint.toJSON` and consumed by
`DataPoint.fromJSON` (the constructor's input object). -/
structure DataPointRec where
  timestamp : ℚ
  latitude : ℚ
  longitude : ℚ
  accuracy : ℚ
  speedMbps : Option ℚ
  connectionType : String
deriving DecidableEq

/-- A validated measurement point (the `DataPoint` class fields). -/
structure DataPoint where
  timestamp : ℚ
  latitude : ℚ
  longitude : ℚ
  accuracy : ℚ
  speedMbps : Option ℚ
  connectionType : String
deriving DecidableEq

/-- `validConnectionTypes` from `DataPoint.validate`. -/
def validConnectionTypes : List String := ["wifi", "cellular", "unknown", "offline"]

/-- The `DataPoint` constructor: stores the fields, then runs `validate`,
which throws on the first violated bound.  The checks appear in source
order; `typeof` checks are subsumed by the Lean types. -/
def mkDataPoint (r : DataPointRec) : Except String DataPoint :=
  if r.timestamp ≤ 0 then
    Except.error "Invalid timestamp: must be a positive number"
  else if r.latitude < -90 ∨ 90 < r.latitude then
    Except.error "Invalid latitude: must be between -90 and 90"
  else if r.longitude < -180 ∨ 180 < r.longitude then
    Except.error "Invalid longitude: must be between -180 and 180"
  else if r.accuracy < 0 then
    Except.error "Invalid accuracy: must be a non-negative number"
  else if (match r.speedMbps with | some s => decide (s < 0) | none => false) then
    Except.error "Invalid speedMbps: must be null or a non-negative number"
  else if r.connectionType ∉ validConnectionTypes then
    Except.error ("Invalid connectionType: must be one of " ++
      String.intercalate ", " validConnectionTypes)
  else
    Except.ok ⟨r.timestamp, r.latitude, r.longitude, r.accuracy, r.speedMbps, r.connectionType⟩

/-- `DataPoint.getQuality`: the quality class derived from `speedMbps`.
The source hard-codes the floors `2` (good) and `1` (moderate). -/
def DataPoint.getQuality (dp : DataPoint) : String :=
  match dp.speedMbps with
  | none => "offline"
  | some s => if 2 ≤ s then "good" else if 1 ≤ s then "moderate" else "poor"

/-- `DataPoint.toJSON`: the plain object for storage. -/
def DataPoint.toJSON (dp : DataPoint) : DataPointRec :=
  ⟨dp.timestamp, dp.latitude, dp.longitude, dp.accuracy, dp.speedMbps, dp.connectionType⟩

/-- `DataPoint.fromJSON`: re-runs the validating constructor. -/
def DataPoint.fromJSON (r : DataPointRec) : Except String DataPoint :=
  mkDataPoint r

/-! ## Config.js -/

/-- Shape of `Config.speedThresholds`. -/
structure SpeedThresholds where
  good : ℚ
  moderate : ℚ
deriving DecidableEq

namespace Config

/-- `Config.recordingInterval` (milliseconds). -/
def recordingInterval : Nat := 5000

/-- `Config.speedThresholds`: good ≥ 5 Mbps, moderate ≥ 1 Mbps. -/
def speedThresholds : SpeedThresholds := ⟨5, 1⟩

end Config

/-! ## utils/formatters.js -/

/-- `getQualityLabel` from the formatters module; uses the floors `5`
(Good) and `1` (Moderate). -/
def getQualityLabel (speedMbps : Option ℚ) : String :=
  match speedMbps with
  | none => "Offline"
  | some s => if 5 ≤ s then "Good" else if 1 ≤ s then "Moderate" else "Poor"

/-! ## src/js/models/Journey.js -/

/-- Plain keyed record produced by `Journey.toJSON` (and, for persisted
or imported data, the `Journey` constructor's input).  In a serialized
record `id` is always a string; the generated-id fallback for a missing
id is modelled by the empty string together with the fresh-id argument
of `Journey.fromJSON`. -/
structure JourneyRec where
  id : String
  name : String
  startTime : ℚ
  endTime : Option ℚ
  dataPoints : List DataPointRec
deriving DecidableEq

/-- The `Journey` class fields. -/
structure Journey where
  id : String
  name : String
  startTime : ℚ
  endTime : Option ℚ
  dataPoints : List DataPoint
deriving DecidableEq

/-- `dataPoints.map(dp => DataPoint.fromJSON(dp))` inside the `Journey`
constructor: the first invalid point's error propagates. -/
def mapFromJSON : List DataPointRec → Except String (List DataPoint)
  | [] => Except.ok []
  | r :: rs =>
    match DataPoint.fromJSON r, mapFromJSON rs with
    | Except.error e, _ => Except.error e
    | Except.ok _, Except.error e => Except.error e
    | Except.ok dp, Except.ok dps => Except.ok (dp :: dps)

/-- `Journey.validate`, returning the first error message if any.
The `Array.isArray` check is subsumed by the Lean type. -/
def validateJourney (id name : String) (startTime : ℚ) (endTime : Option ℚ) :
    Option String :=
  if id.length = 0 then some "Invalid id: must be a non-empty string"
  else if name.length = 0 then some "Invalid name: must be a non-empty string"
  else if startTime ≤ 0 then some "Invalid startTime: must be a positive number"
  else if (match endTime with | some t => decide (t ≤ 0) | none => false) then
    some "Invalid endTime: must be null or a positive number"
  else if (match endTime with | some t => decide (t < startTime) | none => false) then
    some "Invalid endTime: must be greater than or equal to startTime"
  else none

/-- The `Journey` constructor on a plain record (`Journey.fromJSON`):
`id || generateUUID()` is modelled by the `freshId` argument (the UUID
source is random, hence a parameter), nested points are converted and
re-validated first (they are mapped in the field initializer, before
`this.validate()` runs), then the journey fields are validated. -/
def Journey.fromJSON (freshId : String) (r : JourneyRec) : Except String Journey :=
  let i := if r.id = "" then freshId else r.id
  match mapFromJSON r.dataPoints with
  | Except.error e => Except.error e
  | Except.ok dps =>
    match validateJourney i r.name r.startTime r.endTime with
    | some e => Except.error e
    | none => Except.ok ⟨i, r.name, r.startTime, r.endTime, dps⟩

/-- `Journey.create(name)`: fresh id, `name || default date-based name`,
`startTime = now`, no end time, no points. -/
def Journey.create (freshId : String) (name : Option String) (dateName : String)
    (now : ℚ) : Except String Journey :=
  let n := match name with
    | some s => if s = "" then "Journey " ++ dateName else s
    | none => "Journey " ++ dateName
  match validateJourney freshId n now none with
  | some e => Except.error e
  | none => Except.ok ⟨freshId, n, now, none, []⟩

/-- `Journey.addDataPoint` with a `DataPoint` instance: push to the end. -/
def Journey.addDataPoint (j : Journey) (dp : DataPoint) : Journey :=
  { j with dataPoints := j.dataPoints ++ [dp] }

/-- `Journey.end(timestamp)`: sets `endTime` unconditionally, with no
re-validation (`end` is a Lean keyword, hence the name). -/
def Journey.endJourney (j : Journey) (timestamp : ℚ) : Journey :=
  { j with endTime := some timestamp }

/-- `Journey.getDuration`; `this.endTime || Date.now()` treats both
`null` and `0` as falsy, so `now` is a parameter. -/
def Journey.getDuration (j : Journey) (now : ℚ) : ℚ :=
  (match j.endTime with
   | some t => if t = 0 then now else t
   | none => now) - j.startTime

/-- Result shape of `Journey.getStats` (the `qualityCounts` object is
flattened into four fields). -/
structure JourneyStats where
  pointCount : Nat
  avgSpeed : Option ℚ
  maxSpeed : Option ℚ
  minSpeed : Option ℚ
  goodCount : Nat
  moderateCount : Nat
  poorCount : Nat
  offlineCount : Nat
  duration : ℚ
deriving DecidableEq

/-- `Journey.getStats`: `speeds` keeps the non-null measurements;
`reduce((a,b) => a+b, 0)` is a left fold; `Math.max(...speeds)` /
`Math.min(...speeds)` fold `max` / `min` over the spread list. -/
def Journey.getStats (j : Journey) (now : ℚ) : JourneyStats :=
  let speeds : List ℚ := (j.dataPoints.map (fun dp => dp.speedMbps)).filterMap (fun s => s)
  { pointCount := j.dataPoints.length
    avgSpeed :=
      if 0 < speeds.length then some (speeds.foldl (· + ·) 0 / (speeds.length : ℚ))
      else none
    maxSpeed := match speeds with
      | [] => none
      | x :: xs => some (xs.foldl max x)
    minSpeed := match speeds with
      | [] => none
      | x :: xs => some (xs.foldl min x)
    goodCount := j.dataPoints.countP (fun dp => dp.getQuality == "good")
    moderateCount := j.dataPoints.countP (fun dp => dp.getQuality == "moderate")
    poorCount := j.dataPoints.countP (fun dp => dp.getQuality == "poor")
    offlineCount := j.dataPoints.countP (fun dp => dp.getQuality == "offline")
    duration := j.getDuration now }

/-- `Journey.toJSON`. -/
def Journey.toJSON (j : Journey) : JourneyRec :=
  ⟨j.id, j.name, j.startTime, j.endTime, j.dataPoints.map DataPoint.toJSON⟩

/-! ## src/js/services/StorageService.js

The IndexedDB `journeys` object store (key path `id`, secondary index on
`startTime`) is modelled as a list of serialized records with unique
ids.  `store.put` replaces the entry with a matching key or adds a new
one; `store.delete` removes it; the `startTime` index walked with a
`prev` cursor yields the entries in descending `startTime` order. -/

/-- Point lookup by key (`store.get(id)`). -/
def findRec : List JourneyRec → String → Option JourneyRec
  | [], _ => none
  | x :: xs, i => if x.id = i then some x else findRec xs i

/-- Keyed upsert (`store.put(record)` under key path `id`). -/
def putRec : List JourneyRec → JourneyRec → List JourneyRec
  | [], r => [r]
  | x :: xs, r => if x.id = r.id then r :: xs else x :: putRec xs r

/-- Keyed removal (`store.delete(id)`); deleting an absent key is a
no-op. -/
def deleteRec : List JourneyRec → String → List JourneyRec
  | [], _ => []
  | x :: xs, i => if x.id = i then deleteRec xs i else x :: deleteRec xs i

/-- `StorageService.saveJourney`: puts `journey.toJSON()`. -/
def saveJourney (st : List JourneyRec) (j : Journey) : List JourneyRec :=
  putRec st j.toJSON

/-- Descending `startTime` order used by `getAllJourneys`. -/
def startTimeDesc (a b : JourneyRec) : Prop := b.startTime ≤ a.startTime

instance : DecidableRel startTimeDesc := fun a b =>
  inferInstanceAs (Decidable (b.startTime ≤ a.startTime))

instance : IsTotal JourneyRec startTimeDesc :=
  ⟨fun a b => le_total b.startTime a.startTime⟩

instance : IsTrans JourneyRec startTimeDesc :=
  ⟨fun _ _ _ h1 h2 => le_trans h2 h1⟩

/-- `StorageService.getAllJourneys`: the records delivered by the
`startTime` index cursor opened with direction `prev`, i.e. the store
contents in descending `startTime` order. -/
def getAllRecs (st : List JourneyRec) : List JourneyRec :=
  st.insertionSort startTimeDesc

/-- A successful storage operation of the service (`saveJourney` or
`deleteJourney`). -/
inductive StoreOp where
  | put : Journey → StoreOp
  | del : String → StoreOp

/-- Effect of one successful operation on the store. -/
def applyOp (st : List JourneyRec) : StoreOp → List JourneyRec
  | StoreOp.put j => saveJourney st j
  | StoreOp.del i => deleteRec st i

/-- The store contents after a sequence of successful operations,
starting from the empty store. -/
def runOps (ops : List StoreOp) : List JourneyRec :=
  ops.foldl applyOp []

/-- Reference (spec-side) semantics of one operation on the value
associated with the key `i`. -/
def lookStep (i : String) (acc : Option JourneyRec) : StoreOp → Option JourneyRec
  | StoreOp.put j => if j.id = i then some j.toJSON else acc
  | StoreOp.del d => if d = i then none else acc

/-- Reference map semantics: the record a key is bound to after a
sequence of operations — the last `Put` of that id not followed by a
`Delete` of it. -/
def opsLookup (ops : List StoreOp) (i : String) : Option JourneyRec :=
  ops.foldl (lookStep i) none

def storeIds (st : List JourneyRec) : List String :=
  st.map (fun r => r.id)

/-- Parsed import payload (`JSON.parse` result); `journey` is optional
because the falsy check `!data.journey` guards it. -/
structure ImportPayload where
  version : Option String
  exportedAt : Option String
  journey : Option JourneyRec

/-- `StorageService.importJourney` after a successful file read and
JSON parse: rejects payloads without a `journey` field, otherwise
reconstructs the journey through the validating constructor and
persists it.  Returns the outcome plus the resulting store. -/
def importJourney (freshId : String) (p : ImportPayload) (st : List JourneyRec) :
    Except String Journey × List JourneyRec :=
  match p.journey with
  | none => (Except.error "Failed to import journey: Invalid journey file format", st)
  | some r =>
    match Journey.fromJSON freshId r with
    | Except.error e => (Except.error ("Failed to import journey: " ++ e), st)
    | Except.ok j => (Except.ok j, saveJourney st j)

/-! ## src/js/views/CollectorView.js

The recording controller.  Its mutable own state (the class fields
`currentJourney`, `intervalId`, `isRecording`, `watchId`,
`latestPosition`, `wakeLock`) is a `CollectorState`; DOM updates
(status text, list rendering, error banners) have no state here.
External service outcomes (geolocation, speed probe, storage) are
supplied through environment records, one per awaited call. -/

/-- Model of `String.prototype.trim()` (strip leading and trailing
whitespace), applied to the journey-name input field. -/
def jsTrim (s : String) : String :=
  ⟨((s.data.dropWhile Char.isWhitespace).reverse.dropWhile Char.isWhitespace).reverse⟩

/-- A geolocation fix as delivered by `GeolocationService`. -/
structure GeoPosition where
  latitude : ℚ
  longitude : ℚ
  accuracy : ℚ
deriving DecidableEq

/-- A `SpeedTestService.measureSpeed` result. -/
structure SpeedResult where
  speedMbps : Option ℚ
  connectionType : String
deriving DecidableEq

/-- The controller's own mutable fields. -/
structure CollectorState where
  currentJourney : Option Journey
  intervalId : Option Nat
  isRecording : Bool
  watchId : Option Nat
  latestPosition : Option GeoPosition
  wakeLock : Bool
deriving DecidableEq

/-- Outcomes of the awaited calls of one sample cycle
(`recordDataPoint`): the one-shot position lookup used when no watched
fix is cached, the speed probe, the auto-save, and `Date.now()`. -/
structure CycleEnv where
  now : ℚ
  posLookup : Except String GeoPosition
  speedResult : Except String SpeedResult
  saveResult : Except String Unit

/-- `CollectorView.recordDataPoint`: guarded on `isRecording` and
`currentJourney`; every failure inside the cycle is caught by the
surrounding `try`/`catch`, whose handler only writes DOM error text.
A save failure happens after the point was already pushed. -/
def recordDataPoint (env : CycleEnv) (st : CollectorState) : CollectorState :=
  if st.isRecording = false then st
  else
    match st.currentJourney with
    | none => st
    | some j =>
      match (match st.latestPosition with
             | some p => Except.ok p
             | none => env.posLookup) with
      | Except.error _ => st
      | Except.ok pos =>
        match env.speedResult with
        | Except.error _ => st
        | Except.ok sr =>
          match mkDataPoint ⟨env.now, pos.latitude, pos.longitude,
                             pos.accuracy, sr.speedMbps, sr.connectionType⟩ with
          | Except.error _ => st
          | Except.ok dp =>
            let st1 := { st with currentJourney := some (j.addDataPoint dp) }
            match env.saveResult with
            | Except.error _ => st1
            | Except.ok _ => st1

/-- Outcomes of the awaited calls of `startRecording`: the permission
probe (`ok true` granted, `ok false` denied, `error` thrown), the wake
lock, the journey-name input and date, the generated UUID, the handles
returned by `watchPosition` / `setInterval`, and the environment of the
immediate first sample cycle. -/
structure StartEnv where
  permissionResult : Except String Bool
  wakeLockOk : Bool
  nameInput : String
  dateName : String
  freshId : String
  now : ℚ
  watchId : Nat
  intervalId : Nat
  cycle : CycleEnv

/-- `CollectorView.startRecording`.  There is no `isRecording` guard:
the method proceeds regardless of the current state.  A denied
permission returns after showing an error (state untouched); a thrown
error lands in the `catch`, which only resets `isRecording`.  On the
granted path a fresh journey replaces `currentJourney`, new watch and
interval handles overwrite the old fields (the old timer and watch are
not cancelled), and the first sample cycle runs in between.  Fixes
delivered later to the watch callback are outside this one-call model. -/
def startRecording (env : StartEnv) (st : CollectorState) : CollectorState :=
  match env.permissionResult with
  | Except.error _ => { st with isRecording := false }
  | Except.ok false => st
  | Except.ok true =>
    let st0 := { st with wakeLock := if env.wakeLockOk then true else st.wakeLock }
    let name := if jsTrim env.nameInput = "" then none else some (jsTrim env.nameInput)
    match Journey.create env.freshId name env.dateName env.now with
    | Except.error _ => { st0 with isRecording := false }
    | Except.ok jNew =>
      let st1 := { st0 with currentJourney := some jNew, isRecording := true }
      let st2 := { st1 with watchId := some env.watchId }
      let st3 := recordDataPoint env.cycle st2
      { st3 with intervalId := some env.intervalId }

def presentSpeeds (j : Journey) : List ℚ :=
  j.dataPoints.filterMap (fun dp => dp.speedMbps)

def statsExampleJourney : Journey :=
  ⟨"a", "trip", 1000, none,
   [⟨1, 0, 0, 0, some 10, "wifi"⟩, ⟨2, 0, 0, 0, some 5, "wifi"⟩,
    ⟨3, 0, 0, 0, some 1, "cellular"⟩, ⟨4, 0, 0, 0, none, "offline"⟩]⟩

/-- A concrete Recording-state controller and a cycle environment whose
speed probe fails, exercising the in-cycle failure policy. -/
def cycleFailState : CollectorState :=
  ⟨some ⟨"id0", "Trip", 1000, none, [⟨500, 1, 2, 3, some 2, "wifi"⟩]⟩,
   some 4, true, some 5, none, false⟩

/-- Cycle environment in which the throughput probe rejects. -/
def cycleFailEnv : CycleEnv :=
  ⟨1500, Except.ok ⟨1, 2, 3⟩, Except.error "probe failed", Except.ok ()⟩

/-- A controller mid-recording: current journey with one sample, live
timer handle 1 and position-watch handle 2. -/
def busyState : CollectorState :=
  ⟨some ⟨"id0", "Trip", 1000, none, [⟨500, 1, 2, 3, some 2, "wifi"⟩]⟩,
   some 1, true, some 2, none, false⟩

/-- Environment of a second Start request issued during recording, with
the permission probe granted. -/
def secondStartEnv : StartEnv :=
  ⟨Except.ok true, true, "", "01/02/2024", "id1", 2000, 7, 8,
   ⟨2000, Except.error "gps down", Except.error "net down", Except.ok ()⟩⟩

/-- The same second Start request but with the permission probe denied. -/
def deniedStartEnv : StartEnv :=
  ⟨Except.ok false, true, "", "01/02/2024", "id1", 2000, 7, 8,
   ⟨2000, Except.error "gps down", Except.error "net down", Except.ok ()⟩⟩

/-! ## Helper lemmas -/

/-- A journey record accepted by `validateJourney` has `endTime ≥ startTime`
whenever `endTime` is present. -/
lemma validateJourney_endTime_ge {i n : String} {st : ℚ} {et : Option ℚ}
    (hv : validateJourney i n st et = none) :
    ∀ t : ℚ, et = some t → st ≤ t := by
  intro t ht
  subst ht
  unfold validateJourney at hv
  split_ifs at hv with h1 h2 h3 h4 h5
  simp_all

lemma foldl_add_eq_sum (l : List ℚ) : ∀ a : ℚ, l.foldl (· + ·) a = a + l.sum := by
  induction l with
  | nil => simp
  | cons x t ih =>
    intro a
    simp only [List.foldl_cons, List.sum_cons, ih, add_assoc]

lemma foldl_max_mem (xs : List ℚ) : ∀ x : ℚ, xs.foldl max x ∈ x :: xs := by
  induction xs with
  | nil => simp
  | cons a t ih =>
    intro x
    rcases max_choice x a with h | h
    · rcases List.mem_cons.mp (ih (max x a)) with hm | hm
      · rw [List.foldl_cons, hm, h]
        exact List.mem_cons_self _ _
      · exact List.mem_cons_of_mem _ (List.mem_cons_of_mem _ hm)
    · rcases List.mem_cons.mp (ih (max x a)) with hm | hm
      · rw [List.foldl_cons, hm, h]
        exact List.mem_cons_of_mem _ (List.mem_cons_self _ _)
      · exact List.mem_cons_of_mem _ (List.mem_cons_of_mem _ hm)

lemma le_foldl_max (xs : List ℚ) : ∀ x y : ℚ, y ∈ x :: xs → y ≤ xs.foldl max x := by
  induction xs with
  | nil =>
    intro x y hy
    rcases List.mem_cons.mp hy with h | h
    · simp [h]
    · cases h
  | cons a t ih =>
    intro x y hy
    rw [List.foldl_cons]
    rcases List.mem_cons.mp hy with h | h
    · subst h
      exact le_trans (le_max_left y a) (ih _ _ (List.mem_cons_self _ _))
    · rcases List.mem_cons.mp h with h2 | h2
      · subst h2
        exact le_trans (le_max_right x y) (ih _ _ (List.mem_cons_self _ _))
      · exact ih _ _ (List.mem_cons_of_mem _ h2)

lemma foldl_min_mem (xs : List ℚ) : ∀ x : ℚ, xs.foldl min x ∈ x :: xs := by
  induction xs with
  | nil => simp
  | cons a t ih =>
    intro x
    rcases min_choice x a with h | h
    · rcases List.mem_cons.mp (ih (min x a)) with hm | hm
      · rw [List.foldl_cons, hm, h]
        exact List.mem_cons_self _ _
      · exact List.mem_cons_of_mem _ (List.mem_cons_of_mem _ hm)
    · rcases List.mem_cons.mp (ih (min x a)) with hm | hm
      · rw [List.foldl_cons, hm, h]
        exact List.mem_cons_of_mem _ (List.mem_cons_self _ _)
      · exact List.mem_cons_of_mem _ (List.mem_cons_of_mem _ hm)

lemma foldl_min_le (xs : List ℚ) : ∀ x y : ℚ, y ∈ x :: xs → xs.foldl min x ≤ y := by
  induction xs with
  | nil =>
    intro x y hy
    rcases List.mem_cons.mp hy with h | h
    · simp [h]
    · cases h
  | cons a t ih =>
    intro x y hy
    rw [List.foldl_cons]
    rcases List.mem_cons.mp hy with h | h
    · subst h
      exact le_trans (ih _ _ (List.mem_cons_self _ _)) (min_le_left y a)
    · rcases List.mem_cons.mp h with h2 | h2
      · subst h2
        exact le_trans (ih _ _ (List.mem_cons_self _ _)) (min_le_right x y)
      · exact ih _ _ (List.mem_cons_of_mem _ h2)

lemma getQuality_cases (dp : DataPoint) :
    dp.getQuality = "good" ∨ dp.getQuality = "moderate" ∨
    dp.getQuality = "poor" ∨ dp.getQuality = "offline" := by
  rw [DataPoint.getQuality]
  rcases dp.speedMbps with _ | s
  · simp
  · simp only
    split_ifs <;> simp

lemma quality_counts_partition (dps : List DataPoint) :
    dps.countP (fun dp => dp.getQuality == "good") +
    dps.countP (fun dp => dp.getQuality == "moderate") +
    dps.countP (fun dp => dp.getQuality == "poor") +
    dps.countP (fun dp => dp.getQuality == "offline") = dps.length := by
  induction dps with
  | nil => simp
  | cons dp t ih =>
    simp only [List.countP_cons, List.length_cons]
    rcases getQuality_cases dp with h | h | h | h <;> simp [h] <;> omega

lemma findRec_putRec (st : List JourneyRec) (r : JourneyRec) (i : String) :
    findRec (putRec st r) i = if r.id = i then some r else findRec st i := by
  induction st with
  | nil =>
    by_cases h : r.id = i <;> simp [putRec, findRec, h]
  | cons x xs ih =>
    by_cases hx : x.id = r.id
    · rw [putRec, if_pos hx]
      by_cases h : r.id = i
      · rw [findRec, if_pos h, if_pos h]
      · have hxi : ¬ x.id = i := by rw [hx]; exact h
        rw [findRec, if_neg h, if_neg h, findRec, if_neg hxi]
    · rw [putRec, if_neg hx]
      by_cases hxi : x.id = i
      · have h : ¬ r.id = i := fun hc => hx (hxi.trans hc.symm)
        rw [findRec, if_pos hxi, if_neg h, findRec, if_pos hxi]
      · rw [findRec, if_neg hxi, ih]
        by_cases h : r.id = i
        · rw [if_pos h, if_pos h]
        · rw [if_neg h, if_neg h, findRec, if_neg hxi]

lemma findRec_deleteRec (st : List JourneyRec) (i i' : String) :
    findRec (deleteRec st i) i' = if i = i' then none else findRec st i' := by
  induction st with
  | nil => by_cases h : i = i' <;> simp [deleteRec, findRec, h]
  | cons x xs ih =>
    by_cases hxi : x.id = i
    · rw [deleteRec, if_pos hxi, ih]
      by_cases h : i = i'
      · rw [if_pos h, if_pos h]
      · have hxi' : ¬ x.id = i' := by rw [hxi]; exact h
        rw [if_neg h, if_neg h, findRec, if_neg hxi']
    · rw [deleteRec, if_neg hxi, findRec]
      by_cases hxi' : x.id = i'
      · have h : ¬ i = i' := fun hc => hxi (hxi'.trans hc.symm)
        rw [if_pos hxi', if_neg h, findRec, if_pos hxi']
      · rw [if_neg hxi', ih]
        by_cases h : i = i'
        · rw [if_pos h, if_pos h]
        · rw [if_neg h, if_neg h, findRec, if_neg hxi']

lemma findRec_applyOp (st : List JourneyRec) (op : StoreOp) (i : String) :
    findRec (applyOp st op) i = lookStep i (findRec st i) op := by
  cases op with
  | put j => simpa [applyOp, saveJourney, lookStep, Journey.toJSON] using
      findRec_putRec st j.toJSON i
  | del d => simpa [applyOp, lookStep] using findRec_deleteRec st d i

lemma findRec_foldl (ops : List StoreOp) :
    ∀ (st : List JourneyRec) (i : String),
      findRec (ops.foldl applyOp st) i = ops.foldl (lookStep i) (findRec st i) := by
  induction ops with
  | nil => intro st i; rfl
  | cons op t ih =>
    intro st i
    simp only [List.foldl_cons]
    rw [ih, findRec_applyOp]

lemma mem_storeIds_putRec {a : String} (st : List JourneyRec) (r : JourneyRec)
    (h : a ∈ storeIds (putRec st r)) : a = r.id ∨ a ∈ storeIds st := by
  induction st with
  | nil => simpa [putRec, storeIds] using h
  | cons x xs ih =>
    by_cases hx : x.id = r.id
    · simp only [putRec, if_pos hx, storeIds, List.map_cons, List.mem_cons] at h ⊢
      rcases h with h | h
      · exact Or.inl h
      · exact Or.inr (Or.inr h)
    · simp only [putRec, if_neg hx, storeIds, List.map_cons, List.mem_cons] at h ⊢
      rcases h with h | h
      · exact Or.inr (Or.inl h)
      · rcases ih h with h2 | h2
        · exact Or.inl h2
        · exact Or.inr (Or.inr h2)

lemma mem_storeIds_deleteRec {a : String} (st : List JourneyRec) (i : String)
    (h : a ∈ storeIds (deleteRec st i)) : a ∈ storeIds st := by
  induction st with
  | nil => simp [deleteRec, storeIds] at h
  | cons x xs ih =>
    by_cases hx : x.id = i
    · rw [deleteRec, if_pos hx] at h
      simp only [storeIds, List.map_cons, List.mem_cons]
      exact Or.inr (ih h)
    · simp only [deleteRec, if_neg hx, storeIds, List.map_cons, List.mem_cons] at h ⊢
      rcases h with h | h
      · exact Or.inl h
      · exact Or.inr (ih h)

lemma nodup_storeIds_putRec (st : List JourneyRec) (r : JourneyRec)
    (h : (storeIds st).Nodup) : (storeIds (putRec st r)).Nodup := by
  induction st with
  | nil => simp [putRec, storeIds]
  | cons x xs ih =>
    simp only [storeIds, List.map_cons, List.nodup_cons] at h
    by_cases hx : x.id = r.id
    · simp only [putRec, if_pos hx, storeIds, List.map_cons, List.nodup_cons]
      exact ⟨hx ▸ h.1, h.2⟩
    · simp only [putRec, if_neg hx, storeIds, List.map_cons, List.nodup_cons]
      refine ⟨fun hc => ?_, ih h.2⟩
      rcases mem_storeIds_putRec xs r hc with h2 | h2
      · exact hx h2
      · exact h.1 h2

lemma nodup_storeIds_deleteRec (st : List JourneyRec) (i : String)
    (h : (storeIds st).Nodup) : (storeIds (deleteRec st i)).Nodup := by
  induction st with
  | nil => simp [deleteRec, storeIds]
  | cons x xs ih =>
    simp only [storeIds, List.map_cons, List.nodup_cons] at h
    by_cases hx : x.id = i
    · simp only [deleteRec, if_pos hx]
      exact ih h.2
    · simp only [deleteRec, if_neg hx, storeIds, List.map_cons, List.nodup_cons]
      exact ⟨fun hc => h.1 (mem_storeIds_deleteRec xs i hc), ih h.2⟩

lemma nodup_storeIds_runOps (ops : List StoreOp) :
    (storeIds (runOps ops)).Nodup := by
  have aux : ∀ (l : List StoreOp) (st : List JourneyRec), (storeIds st).Nodup →
      (storeIds (l.foldl applyOp st)).Nodup := by
    intro l
    induction l with
    | nil => intro st h; exact h
    | cons op t ih =>
      intro st h
      simp only [List.foldl_cons]
      refine ih _ ?_
      cases op with
      | put j => exact nodup_storeIds_putRec st j.toJSON h
      | del d => exact nodup_storeIds_deleteRec st d h
  exact aux ops [] (by simp [storeIds])

lemma mkDataPoint_ok_toJSON {r : DataPointRec} {dp : DataPoint}
    (h : mkDataPoint r = Except.ok dp) : dp.toJSON = r := by
  rw [mkDataPoint] at h
  split_ifs at h
  injection h with h
  subst h
  rfl

lemma mapFromJSON_toJSON : ∀ {rs : List DataPointRec} {dps : List DataPoint},
    mapFromJSON rs = Except.ok dps → dps.map DataPoint.toJSON = rs := by
  intro rs
  induction rs with
  | nil =>
    intro dps h
    rw [mapFromJSON] at h
    injection h with h
    subst h
    rfl
  | cons r t ih =>
    intro dps h
    rw [mapFromJSON] at h
    rcases hr : DataPoint.fromJSON r with e | dp <;> rw [hr] at h
    · cases h
    rcases ht : mapFromJSON t with e2 | dps2 <;> rw [ht] at h
    · cases h
    injection h with h
    subst h
    simp only [List.map_cons, ih ht, mkDataPoint_ok_toJSON hr]

lemma journey_fromJSON_toJSON {freshId : String} {r : JourneyRec} {j : Journey}
    (h : Journey.fromJSON freshId r = Except.ok j) (hid : ¬ r.id = "") :
    j.toJSON = r := by
  rw [Journey.fromJSON] at h
  rcases hm : mapFromJSON r.dataPoints with e | dps <;> rw [hm] at h
  · cases h
  rcases hv : validateJourney (if r.id = "" then freshId else r.id)
      r.name r.startTime r.endTime with _ | e <;> rw [hv] at h
  case some => cases h
  injection h with h
  subst h
  rw [Journey.toJSON]
  simp only [mapFromJSON_toJSON hm, if_neg hid]

lemma recordDataPoint_state (env : CycleEnv) (st : CollectorState) (j : Journey)
    (hrec : st.isRecording = true) (hj : st.currentJourney = some j) :
    (recordDataPoint env st).isRecording = true ∧
    (recordDataPoint env st).intervalId = st.intervalId ∧
    (recordDataPoint env st).watchId = st.watchId ∧
    (recordDataPoint env st).latestPosition = st.latestPosition ∧
    ∃ tail, (recordDataPoint env st).currentJourney =
        some { j with dataPoints := j.dataPoints ++ tail } ∧ tail.length ≤ 1 := by
  rcases hpos : (match st.latestPosition with
                 | some p => Except.ok p
                 | none => env.posLookup) with e | pos
  · refine ⟨?_, ?_, ?_, ?_, [], ?_, by simp⟩ <;>
      simp [recordDataPoint, hj, hpos, hrec]
  · rcases hsr : env.speedResult with e | sr
    · refine ⟨?_, ?_, ?_, ?_, [], ?_, by simp⟩ <;>
        simp [recordDataPoint, hj, hpos, hsr, hrec]
    · rcases hdp : mkDataPoint ⟨env.now, pos.latitude, pos.longitude,
          pos.accuracy, sr.speedMbps, sr.connectionType⟩ with e | dp
      · refine ⟨?_, ?_, ?_, ?_, [], ?_, by simp⟩ <;>
          simp [recordDataPoint, hj, hpos, hsr, hdp, hrec]
      · rcases hsv : env.saveResult with e | u
        · refine ⟨?_, ?_, ?_, ?_, [dp], ?_, by simp⟩ <;>
            simp [recordDataPoint, hj, hpos, hsr, hdp, hsv, hrec, Journey.addDataPoint]
        · refine ⟨?_, ?_, ?_, ?_, [dp], ?_, by simp⟩ <;>
            simp [recordDataPoint, hj, hpos, hsr, hdp, hsv, hrec, Journey.addDataPoint]

/-! ## Claims -/

/-- C10: for a present speed `s`, `DataPoint.getQuality` classifies `good`
exactly when `s` is at least the good floor used by the function (2),
`moderate` exactly when `s` is at least the moderate floor (1) but below
the good floor, and `poor` exactly when `s` is below the moderate floor;
a value equal to a floor belongs to the higher class, and an absent
speed always classifies as `offline`. -/
theorem getQuality_classification (dp : DataPoint) :
    (dp.speedMbps = none → dp.getQuality = "offline") ∧
    (∀ s : ℚ, dp.speedMbps = some s →
      (dp.getQuality = "good" ↔ 2 ≤ s) ∧
      (dp.getQuality = "moderate" ↔ 1 ≤ s ∧ s < 2) ∧
      (dp.getQuality = "poor" ↔ s < 1)) := by
  constructor
  · intro h
    simp [DataPoint.getQuality, h]
  · intro s h
    simp only [DataPoint.getQuality, h]
    by_cases h2 : 2 ≤ s
    · rw [if_pos h2]
      refine ⟨⟨fun _ => h2, fun _ => rfl⟩, ?_, ?_⟩
      · exact iff_of_false (by decide) (fun hc => absurd h2 (not_le.mpr hc.2))
      · exact iff_of_false (by decide)
          (not_lt.mpr (le_trans (by norm_num) h2))
    · rw [if_neg h2]
      by_cases h1 : 1 ≤ s
      · rw [if_pos h1]
        refine ⟨iff_of_false (by decide) h2, ?_, ?_⟩
        · exact ⟨fun _ => ⟨h1, not_le.mp h2⟩, fun _ => rfl⟩
        · exact iff_of_false (by decide) (not_lt.mpr h1)
      · rw [if_neg h1]
        refine ⟨iff_of_false (by decide) h2, ?_, ?_⟩
        · exact iff_of_false (by decide) (fun hc => absurd hc.1 h1)
        · exact ⟨fun _ => not_le.mp h1, fun _ => rfl⟩

/-- C10 witness: the classification at the boundary values 2 and 1, at 0,
and at an absent speed. -/
theorem getQuality_classification_witness :
    DataPoint.getQuality ⟨1, 0, 0, 0, some 2, "wifi"⟩ = "good" ∧
    DataPoint.getQuality ⟨1, 0, 0, 0, some 1, "wifi"⟩ = "moderate" ∧
    DataPoint.getQuality ⟨1, 0, 0, 0, some 0, "cellular"⟩ = "poor" ∧
    DataPoint.getQuality ⟨1, 0, 0, 0, none, "offline"⟩ = "offline" :=
  ⟨(((getQuality_classification _).2 2 rfl).1).mpr (by decide),
   (((getQuality_classification _).2 1 rfl).2.1).mpr (by decide),
   (((getQuality_classification _).2 0 rfl).2.2).mpr (by decide),
   ((getQuality_classification ⟨1, 0, 0, 0, none, "offline"⟩).1 rfl)⟩

/-- C3: at a present speed of 3 Mbps the model's quality class and the
formatter's quality label disagree (beyond capitalization):
`DataPoint.getQuality` answers `good` (its hard-coded good floor is 2)
while `getQualityLabel` answers `Moderate`, consistent with
`Config.speedThresholds` whose good floor is 5; the sample carrying
speed 3 is validly constructible. -/
theorem quality_label_divergence :
    DataPoint.getQuality ⟨1, 0, 0, 0, some 3, "cellular"⟩ = "good" ∧
    getQualityLabel (some 3) = "Moderate" ∧
    getQualityLabel (some 3) ≠ "Good" ∧
    Config.speedThresholds.good = 5 ∧
    Config.speedThresholds.moderate = 1 ∧
    ¬ Config.speedThresholds.good ≤ 3 ∧
    mkDataPoint ⟨1, 0, 0, 0, some 3, "cellular"⟩ =
      Except.ok ⟨1, 0, 0, 0, some 3, "cellular"⟩ := by decide

/-- C7: each out-of-bound field value makes construction fail with the
error message naming that field (each field's check is reached when the
previously checked fields are in bounds), and a successful construction
is only possible when every field is in bounds. -/
theorem mkDataPoint_validation (r : DataPointRec) :
    (r.timestamp ≤ 0 →
      mkDataPoint r = Except.error "Invalid timestamp: must be a positive number") ∧
    (0 < r.timestamp → (r.latitude < -90 ∨ 90 < r.latitude) →
      mkDataPoint r = Except.error "Invalid latitude: must be between -90 and 90") ∧
    (0 < r.timestamp → -90 ≤ r.latitude → r.latitude ≤ 90 →
      (r.longitude < -180 ∨ 180 < r.longitude) →
      mkDataPoint r = Except.error "Invalid longitude: must be between -180 and 180") ∧
    (0 < r.timestamp → -90 ≤ r.latitude → r.latitude ≤ 90 →
      -180 ≤ r.longitude → r.longitude ≤ 180 → r.accuracy < 0 →
      mkDataPoint r = Except.error "Invalid accuracy: must be a non-negative number") ∧
    (∀ s : ℚ, 0 < r.timestamp → -90 ≤ r.latitude → r.latitude ≤ 90 →
      -180 ≤ r.longitude → r.longitude ≤ 180 → 0 ≤ r.accuracy →
      r.speedMbps = some s → s < 0 →
      mkDataPoint r = Except.error "Invalid speedMbps: must be null or a non-negative number") ∧
    (0 < r.timestamp → -90 ≤ r.latitude → r.latitude ≤ 90 →
      -180 ≤ r.longitude → r.longitude ≤ 180 → 0 ≤ r.accuracy →
      (∀ s : ℚ, r.speedMbps = some s → 0 ≤ s) →
      r.connectionType ∉ validConnectionTypes →
      mkDataPoint r = Except.error
        "Invalid connectionType: must be one of wifi, cellular, unknown, offline") ∧
    (∀ dp, mkDataPoint r = Except.ok dp →
      0 < r.timestamp ∧ -90 ≤ r.latitude ∧ r.latitude ≤ 90 ∧
      -180 ≤ r.longitude ∧ r.longitude ≤ 180 ∧ 0 ≤ r.accuracy ∧
      (∀ s : ℚ, r.speedMbps = some s → 0 ≤ s) ∧
      r.connectionType ∈ validConnectionTypes) := by
  refine ⟨?_, ?_, ?_, ?_, ?_, ?_, ?_⟩
  · intro h1
    simp [mkDataPoint, h1]
  · intro h1 h2
    rw [mkDataPoint, if_neg (not_le.mpr h1), if_pos h2]
  · intro h1 h2 h3 h4
    rw [mkDataPoint, if_neg (not_le.mpr h1),
      if_neg (by push_neg; exact ⟨h2, h3⟩), if_pos h4]
  · intro h1 h2 h3 h4 h5 h6
    rw [mkDataPoint, if_neg (not_le.mpr h1),
      if_neg (by push_neg; exact ⟨h2, h3⟩),
      if_neg (by push_neg; exact ⟨h4, h5⟩), if_pos h6]
  · intro s h1 h2 h3 h4 h5 h6 hs hneg
    rw [mkDataPoint, if_neg (not_le.mpr h1),
      if_neg (by push_neg; exact ⟨h2, h3⟩),
      if_neg (by push_neg; exact ⟨h4, h5⟩),
      if_neg (not_lt.mpr h6), if_pos (by simp [hs, hneg])]
  · intro h1 h2 h3 h4 h5 h6 hsp hconn
    rw [mkDataPoint, if_neg (not_le.mpr h1),
      if_neg (by push_neg; exact ⟨h2, h3⟩),
      if_neg (by push_neg; exact ⟨h4, h5⟩),
      if_neg (not_lt.mpr h6),
      if_neg ?_, if_pos hconn]
    · rfl
    · cases hv : r.speedMbps with
      | none => simp [hv]
      | some s =>
        simp [hv]
        exact hsp s hv
  · intro dp h
    rw [mkDataPoint] at h
    split_ifs at h with h1 h2 h3 h4 h5 h6
    push_neg at h1 h2 h3 h6
    refine ⟨h1, h2.1, h2.2, h3.1, h3.2, not_lt.mp h4, ?_, h6⟩
    intro s hs
    rw [hs] at h5
    simpa using h5

/-- C7 witness: the spec's concrete out-of-bound inputs (latitude 91,
longitude -181, accuracy -1, speed -1, transport `5G`, timestamp 0)
each fail with the message naming the offending field. -/
theorem mkDataPoint_validation_witness :
    mkDataPoint ⟨1, 91, 0, 0, some 3, "cellular"⟩ =
      Except.error "Invalid latitude: must be between -90 and 90" ∧
    mkDataPoint ⟨1, 0, -181, 0, some 3, "cellular"⟩ =
      Except.error "Invalid longitude: must be between -180 and 180" ∧
    mkDataPoint ⟨1, 0, 0, -1, some 3, "cellular"⟩ =
      Except.error "Invalid accuracy: must be a non-negative number" ∧
    mkDataPoint ⟨1, 0, 0, 0, some (-1), "cellular"⟩ =
      Except.error "Invalid speedMbps: must be null or a non-negative number" ∧
    mkDataPoint ⟨1, 0, 0, 0, some 3, "5G"⟩ =
      Except.error "Invalid connectionType: must be one of wifi, cellular, unknown, offline" ∧
    mkDataPoint ⟨0, 0, 0, 0, some 3, "cellular"⟩ =
      Except.error "Invalid timestamp: must be a positive number" :=
  ⟨(mkDataPoint_validation _).2.1 (by decide) (Or.inr (by decide)),
   (mkDataPoint_validation _).2.2.1 (by decide) (by decide) (by decide)
     (Or.inl (by decide)),
   (mkDataPoint_validation _).2.2.2.1 (by decide) (by decide) (by decide)
     (by decide) (by decide) (by decide),
   (mkDataPoint_validation _).2.2.2.2.1 (-1) (by decide) (by decide) (by decide)
     (by decide) (by decide) (by decide) rfl (by decide),
   (mkDataPoint_validation ⟨1, 0, 0, 0, some 3, "5G"⟩).2.2.2.2.2.1 (by decide)
     (by decide) (by decide) (by decide) (by decide) (by decide)
     (fun _ hs => (Option.some.inj hs) ▸ (by decide : (0:ℚ) ≤ 3)) (by decide),
   (mkDataPoint_validation _).1 (by decide)⟩

/-- C6: a validly constructed sample serializes with `toJSON` to exactly
the record it was built from, and `fromJSON` of that record re-validates
and returns an equal sample; the speed field, in particular an absent
measurement, is carried through unchanged (never collapsed to 0). -/
theorem dataPoint_roundtrip (r : DataPointRec) (dp : DataPoint)
    (h : mkDataPoint r = Except.ok dp) :
    DataPoint.fromJSON dp.toJSON = Except.ok dp ∧
    dp.toJSON = r ∧
    dp.toJSON.speedMbps = dp.speedMbps ∧
    (dp.speedMbps = none ↔ r.speedMbps = none) := by
  rw [mkDataPoint] at h
  split_ifs at h with h1 h2 h3 h4 h5 h6
  injection h with h
  subst h
  refine ⟨?_, rfl, rfl, Iff.rfl⟩
  rw [DataPoint.fromJSON, mkDataPoint]
  simp only [DataPoint.toJSON]
  rw [if_neg h1, if_neg h2, if_neg h3, if_neg h4, if_neg h5,
    if_neg (not_not_intro h6)]

/-- C6 witness: the round trip at a concrete valid sample with an absent
speed measurement. -/
theorem dataPoint_roundtrip_witness :
    DataPoint.fromJSON (DataPoint.toJSON ⟨1, 0, 0, 0, none, "offline"⟩) =
      Except.ok ⟨1, 0, 0, 0, none, "offline"⟩ ∧
    DataPoint.toJSON (⟨1, 0, 0, 0, none, "offline"⟩ : DataPoint) =
      (⟨1, 0, 0, 0, none, "offline"⟩ : DataPointRec) :=
  ⟨(dataPoint_roundtrip ⟨1, 0, 0, 0, none, "offline"⟩ _ (by decide)).1,
   (dataPoint_roundtrip ⟨1, 0, 0, 0, none, "offline"⟩ _ (by decide)).2.1⟩

/-- C2 counterexample: a validly constructed ongoing journey with
`startTime = 1000`, ended with timestamp 500, is left with
`endTime = 500 < 1000 = startTime`: `Journey.end` performs no
validation, so `End` can leave `endTime < startTime`. -/
theorem end_before_start_counterexample :
    Journey.fromJSON "gen" ⟨"a", "trip", 1000, none, []⟩ =
      Except.ok ⟨"a", "trip", 1000, none, []⟩ ∧
    Journey.endJourney ⟨"a", "trip", 1000, none, []⟩ 500 =
      ⟨"a", "trip", 1000, some 500, []⟩ ∧
    (500 : ℚ) < 1000 := by decide

/-- C2 amended: construction (`fromJSON`, which runs `validate`) enforces
`endTime ≥ startTime` whenever `endTime` is present, and `AppendSample`
preserves the invariant; `End(t)` sets `endTime` unconditionally, so the
journey left by `End` satisfies the invariant exactly when
`t ≥ startTime`. -/
theorem endTime_invariant_amended (freshId : String) (r : JourneyRec) (j : Journey)
    (h : Journey.fromJSON freshId r = Except.ok j) :
    (∀ t, j.endTime = some t → j.startTime ≤ t) ∧
    (∀ dp t, (j.addDataPoint dp).endTime = some t →
      (j.addDataPoint dp).startTime ≤ t) ∧
    (∀ t, j.startTime ≤ t →
      (j.endJourney t).endTime = some t ∧
      ∀ u, (j.endJourney t).endTime = some u → (j.endJourney t).startTime ≤ u) := by
  rw [Journey.fromJSON] at h
  rcases hm : mapFromJSON r.dataPoints with e | dps <;> rw [hm] at h
  · cases h
  rcases hv : validateJourney (if r.id = "" then freshId else r.id)
      r.name r.startTime r.endTime with _ | e <;> rw [hv] at h
  case some => cases h
  injection h with h
  subst h
  have hend := validateJourney_endTime_ge hv
  refine ⟨hend, fun dp t ht => hend t ht, ?_⟩
  intro t hle
  exact ⟨rfl, fun u hu => by injection hu with hu; subst hu; exact hle⟩

/-- C2 amended witness: ending a validly constructed journey
(`startTime = 1000`) at the later time 2000 sets `endTime = 2000`, in
line with the invariant. -/
theorem endTime_invariant_amended_witness :
    (Journey.endJourney ⟨"a", "trip", 1000, none, []⟩ 2000).endTime = some 2000 ∧
    (1000 : ℚ) ≤ 2000 :=
  ⟨((endTime_invariant_amended "gen" ⟨"a", "trip", 1000, none, []⟩
      ⟨"a", "trip", 1000, none, []⟩ (by decide)).2.2 2000 (by decide)).1,
   by decide⟩

/-- C5: `Stats()` counts every sample in `pointCount`; the mean is the
sum of the present speed measurements divided by their number (absent
measurements excluded from numerator and denominator); mean, max and
min are `none` when no measurement is present (including the empty
journey); max and min are attained present measurements bounding all
present measurements; and the per-quality-class counts cover all
samples, offline ones included. -/
theorem getStats_spec (j : Journey) (now : ℚ) :
    (j.getStats now).pointCount = j.dataPoints.length ∧
    (presentSpeeds j = [] →
      (j.getStats now).avgSpeed = none ∧ (j.getStats now).maxSpeed = none ∧
      (j.getStats now).minSpeed = none) ∧
    (presentSpeeds j ≠ [] →
      (j.getStats now).avgSpeed =
        some ((presentSpeeds j).sum / ((presentSpeeds j).length : ℚ)) ∧
      (∃ m, (j.getStats now).maxSpeed = some m ∧ m ∈ presentSpeeds j ∧
        ∀ x ∈ presentSpeeds j, x ≤ m) ∧
      (∃ m, (j.getStats now).minSpeed = some m ∧ m ∈ presentSpeeds j ∧
        ∀ x ∈ presentSpeeds j, m ≤ x)) ∧
    (j.getStats now).goodCount + (j.getStats now).moderateCount +
      (j.getStats now).poorCount + (j.getStats now).offlineCount =
      j.dataPoints.length := by
  have hsp : (j.dataPoints.map (fun dp => dp.speedMbps)).filterMap (fun s => s) =
      presentSpeeds j := by
    rw [List.filterMap_map]
    rfl
  refine ⟨rfl, ?_, ?_, quality_counts_partition j.dataPoints⟩
  · intro h
    have h0 : (j.dataPoints.map (fun dp => dp.speedMbps)).filterMap (fun s => s) = [] := by
      rw [hsp, h]
    simp [Journey.getStats, h0]
  · intro h
    rcases hL : presentSpeeds j with _ | ⟨x, xs⟩
    · exact absurd hL h
    simp only [Journey.getStats, hsp, hL]
    refine ⟨?_, ?_, ?_⟩
    · rw [if_pos (by simp)]
      rw [foldl_add_eq_sum, zero_add]
    · exact ⟨xs.foldl max x, rfl, foldl_max_mem xs x,
        fun y hy => le_foldl_max xs x y hy⟩
    · exact ⟨xs.foldl min x, rfl, foldl_min_mem xs x,
        fun y hy => foldl_min_le xs x y hy⟩

/-- C5 witness: the spec example journey with speeds [10, 5, 1, absent]
has pointCount 4, mean 16/3, max 10, min 1, and quality counts summing
to all four samples. -/
theorem getStats_spec_witness :
    presentSpeeds statsExampleJourney ≠ [] ∧
    (statsExampleJourney.getStats 5000).pointCount = 4 ∧
    (statsExampleJourney.getStats 5000).avgSpeed = some (16 / 3) ∧
    (statsExampleJourney.getStats 5000).maxSpeed = some 10 ∧
    (statsExampleJourney.getStats 5000).minSpeed = some 1 ∧
    (statsExampleJourney.getStats 5000).goodCount +
      (statsExampleJourney.getStats 5000).moderateCount +
      (statsExampleJourney.getStats 5000).poorCount +
      (statsExampleJourney.getStats 5000).offlineCount = 4 := by
  have h := getStats_spec statsExampleJourney 5000
  have hne : presentSpeeds statsExampleJourney ≠ [] := by decide
  refine ⟨hne, h.1.trans (by decide), ?_, by decide, by decide,
    (h.2.2.2).trans (by decide)⟩
  refine ((h.2.2.1 hne).1).trans ?_
  simp only [presentSpeeds, statsExampleJourney, List.filterMap_cons, List.filterMap_nil,
    List.sum_cons, List.sum_nil, List.length_cons, List.length_nil]
  norm_num

/-- C8: after any sequence of successful Put and Delete operations from
an empty store, `getAllJourneys` returns a permutation of exactly the
records currently stored, sorted by `startTime` descending; the store
keys are unique, and the record stored under each id is the one from
the last Put of that id not followed by its Delete (a later Put of the
same id replaces the earlier one). -/
theorem getAllJourneys_spec (ops : List StoreOp) :
    (getAllRecs (runOps ops)).Perm (runOps ops) ∧
    List.Sorted startTimeDesc (getAllRecs (runOps ops)) ∧
    (storeIds (runOps ops)).Nodup ∧
    (∀ i, findRec (runOps ops) i = opsLookup ops i) := by
  refine ⟨List.perm_insertionSort _ _, List.sorted_insertionSort _ _,
    nodup_storeIds_runOps ops, ?_⟩
  intro i
  have h := findRec_foldl ops [] i
  simpa [runOps, opsLookup, findRec] using h

/-- C9: an import payload lacking the `journey` field fails with the
format error and leaves the store unchanged; a well-formed payload
(embedded journey record valid, with its id present) yields a journey
field-wise equal to the embedded record (its serialization is exactly
that record) and persists it to the store; a payload whose embedded
record fails validation also leaves the store unchanged. -/
theorem importJourney_spec (freshId : String) (p : ImportPayload)
    (st : List JourneyRec) :
    (p.journey = none →
      importJourney freshId p st =
        (Except.error "Failed to import journey: Invalid journey file format", st)) ∧
    (∀ r j, p.journey = some r → ¬ r.id = "" →
      Journey.fromJSON freshId r = Except.ok j →
      importJourney freshId p st = (Except.ok j, putRec st j.toJSON) ∧
      j.toJSON = r) ∧
    (∀ r e, p.journey = some r → Journey.fromJSON freshId r = Except.error e →
      importJourney freshId p st =
        (Except.error ("Failed to import journey: " ++ e), st)) := by
  refine ⟨?_, ?_, ?_⟩
  · intro h
    simp only [importJourney, h]
  · intro r j hp hid hok
    simp only [importJourney, hp, hok, saveJourney]
    exact ⟨trivial, journey_fromJSON_toJSON hok hid⟩
  · intro r e hp herr
    simp only [importJourney, hp, herr]

/-- C9 witness: a concrete payload without `journey` is rejected with
the format error, and a concrete well-formed payload is imported,
persisted, and field-wise equal to its embedded record. -/
theorem importJourney_spec_witness :
    importJourney "gen" ⟨some "1.0", some "t", none⟩ [] =
      (Except.error "Failed to import journey: Invalid journey file format", []) ∧
    importJourney "gen" ⟨some "1.0", some "t", some ⟨"a", "trip", 1000, none, []⟩⟩ [] =
      (Except.ok ⟨"a", "trip", 1000, none, []⟩,
       [⟨"a", "trip", 1000, none, []⟩]) ∧
    Journey.toJSON ⟨"a", "trip", 1000, none, []⟩ = ⟨"a", "trip", 1000, none, []⟩ :=
  ⟨(importJourney_spec "gen" ⟨some "1.0", some "t", none⟩ []).1 rfl,
   ((importJourney_spec "gen" ⟨some "1.0", some "t", some ⟨"a", "trip", 1000, none, []⟩⟩
      []).2.1 ⟨"a", "trip", 1000, none, []⟩ ⟨"a", "trip", 1000, none, []⟩ rfl
      (by decide) (by decide)).1.trans (by decide),
   ((importJourney_spec "gen" ⟨some "1.0", some "t", some ⟨"a", "trip", 1000, none, []⟩⟩
      []).2.1 ⟨"a", "trip", 1000, none, []⟩ ⟨"a", "trip", 1000, none, []⟩ rfl
      (by decide) (by decide)).2⟩

/-- C4: for every cycle environment (covering every failure of the
position lookup, the speed probe, sample validation, and the auto-save)
a sample cycle in Recording state leaves the controller Recording, its
timer and position-subscription handles untouched (so the next
scheduled cycle still fires), and the current journey equal to the old
one except for at most one appended sample - previously recorded
samples are unchanged. -/
theorem recordDataPoint_preserves_session (env : CycleEnv) (st : CollectorState)
    (j : Journey) (hrec : st.isRecording = true) (hj : st.currentJourney = some j) :
    (recordDataPoint env st).isRecording = true ∧
    (recordDataPoint env st).intervalId = st.intervalId ∧
    (recordDataPoint env st).watchId = st.watchId ∧
    (recordDataPoint env st).latestPosition = st.latestPosition ∧
    ∃ tail, (recordDataPoint env st).currentJourney =
        some { j with dataPoints := j.dataPoints ++ tail } ∧ tail.length ≤ 1 :=
  recordDataPoint_state env st j hrec hj

/-- C4 witness: a failing speed probe during a cycle leaves the concrete
Recording controller in Recording state with timer, watch and journey
unchanged. -/
theorem recordDataPoint_preserves_session_witness :
    (recordDataPoint cycleFailEnv cycleFailState).isRecording = true ∧
    (recordDataPoint cycleFailEnv cycleFailState).intervalId = some 4 ∧
    (recordDataPoint cycleFailEnv cycleFailState).watchId = some 5 ∧
    (recordDataPoint cycleFailEnv cycleFailState).currentJourney =
      cycleFailState.currentJourney :=
  ⟨(recordDataPoint_preserves_session cycleFailEnv cycleFailState
      ⟨"id0", "Trip", 1000, none, [⟨500, 1, 2, 3, some 2, "wifi"⟩]⟩ rfl rfl).1,
   ((recordDataPoint_preserves_session cycleFailEnv cycleFailState
      ⟨"id0", "Trip", 1000, none, [⟨500, 1, 2, 3, some 2, "wifi"⟩]⟩ rfl rfl).2.1).trans rfl,
   ((recordDataPoint_preserves_session cycleFailEnv cycleFailState
      ⟨"id0", "Trip", 1000, none, [⟨500, 1, 2, 3, some 2, "wifi"⟩]⟩ rfl rfl).2.2.1).trans rfl,
   by decide⟩

/-- C1 counterexample: with a recording session in progress (Recording
state, journey `id0` with one sample, timer handle 1, watch handle 2), a
Start request whose permission probe is granted is NOT rejected: it
creates a fresh journey, replaces the controller's current journey with
it, and overwrites the timer and position-subscription handles. -/
theorem startRecording_not_rejected_counterexample :
    busyState.isRecording = true ∧
    (startRecording secondStartEnv busyState).currentJourney =
      some ⟨"id1", "Journey 01/02/2024", 2000, none, []⟩ ∧
    (startRecording secondStartEnv busyState).currentJourney ≠
      busyState.currentJourney ∧
    (startRecording secondStartEnv busyState).intervalId ≠ busyState.intervalId ∧
    (startRecording secondStartEnv busyState).watchId ≠ busyState.watchId := by
  decide

/-- C1 amended: a Start request during Recording is rejected leaving the
session untouched only when the permission probe is denied; when the
probe is granted (and journey creation succeeds, as it does for every
name input), the controller creates a fresh journey that replaces the
current one (up to the one sample the immediate first cycle may append)
and overwrites the timer and subscription handles with the new ones,
without cancelling the old ones. -/
theorem startRecording_while_recording_behavior (env : StartEnv)
    (st : CollectorState) (j0 : Journey)
    (_hrec : st.isRecording = true) (_hj : st.currentJourney = some j0) :
    (env.permissionResult = Except.ok false → startRecording env st = st) ∧
    (∀ jNew, env.permissionResult = Except.ok true →
      Journey.create env.freshId
        (if jsTrim env.nameInput = "" then none else some (jsTrim env.nameInput))
        env.dateName env.now = Except.ok jNew →
      (startRecording env st).intervalId = some env.intervalId ∧
      (startRecording env st).watchId = some env.watchId ∧
      (startRecording env st).isRecording = true ∧
      (∃ tail, (startRecording env st).currentJourney =
        some { jNew with dataPoints := jNew.dataPoints ++ tail } ∧ tail.length ≤ 1) ∧
      (¬ jNew.id = j0.id → (startRecording env st).currentJourney ≠ some j0)) := by
  constructor
  · intro hp
    simp only [startRecording, hp]
  · intro jNew hp hc
    simp only [startRecording, hp, hc]
    obtain ⟨hr, hi, hw, hl, tail, hcur, hlen⟩ :=
      recordDataPoint_state env.cycle
        ({ st with
            currentJourney := some jNew
            isRecording := true
            watchId := some env.watchId
            wakeLock := if env.wakeLockOk = true then true else st.wakeLock })
        jNew rfl rfl
    refine ⟨trivial, hw.trans rfl, hr, ⟨tail, hcur, hlen⟩, ?_⟩
    intro hne hc2
    rw [hcur] at hc2
    injection hc2 with hc2
    have hid : ({ jNew with dataPoints := jNew.dataPoints ++ tail } : Journey).id =
        j0.id := congrArg Journey.id hc2
    exact hne hid

end SignalStrength

namespace SignalStrength

/-- C1 amended witness: at the concrete Recording state, the denied
request leaves the state unchanged, while the granted request installs
timer handle 8 and watch handle 7 and replaces the current journey. -/
theorem startRecording_while_recording_behavior_witness :
    startRecording deniedStartEnv busyState = busyState ∧
    (startRecording secondStartEnv busyState).intervalId = some 8 ∧
    (startRecording secondStartEnv busyState).watchId = some 7 ∧
    (startRecording secondStartEnv busyState).isRecording = true ∧
    (startRecording secondStartEnv busyState).currentJourney ≠
      some ⟨"id0", "Trip", 1000, none, [⟨500, 1, 2, 3, some 2, "wifi"⟩]⟩ :=
  ⟨(startRecording_while_recording_behavior deniedStartEnv busyState
      ⟨"id0", "Trip", 1000, none, [⟨500, 1, 2, 3, some 2, "wifi"⟩]⟩ rfl rfl).1 rfl,
   ((startRecording_while_recording_behavior secondStartEnv busyState
      ⟨"id0", "Trip", 1000, none, [⟨500, 1, 2, 3, some 2, "wifi"⟩]⟩ rfl rfl).2
      ⟨"id1", "Journey 01/02/2024", 2000, none, []⟩ rfl (by decide)).1,
   ((startRecording_while_recording_behavior secondStartEnv busyState
      ⟨"id0", "Trip", 1000, none, [⟨500, 1, 2, 3, some 2, "wifi"⟩]⟩ rfl rfl).2
      ⟨"id1", "Journey 01/02/2024", 2000, none, []⟩ rfl (by decide)).2.1,
   ((startRecording_while_recording_behavior secondStartEnv busyState
      ⟨"id0", "Trip", 1000, none, [⟨500, 1, 2, 3, some 2, "wifi"⟩]⟩ rfl rfl).2
      ⟨"id1", "Journey 01/02/2024", 2000, none, []⟩ rfl (by decide)).2.2.1,
   ((startRecording_while_recording_behavior secondStartEnv busyState
      ⟨"id0", "Trip", 1000, none, [⟨500, 1, 2, 3, some 2, "wifi"⟩]⟩ rfl rfl).2
      ⟨"id1", "Journey 01/02/2024", 2000, none, []⟩ rfl (by decide)).2.2.2.2
      (by decide)⟩

end SignalStrength
